import Mathlib

/-!
# Verification of the composefs deployment subsystem of bootc

A shallow embedding, in Lean 4, of the decision logic of the composefs
backend of the `bootc` host agent:

* digest computation (`crates/lib/src/bootc_composefs/digest.rs`),
* kernel detection (`crates/lib/src/kernel.rs`),
* SELinux policy compatibility (`crates/lib/src/bootc_composefs/selinux.rs`),
* soft-reboot capability (`crates/lib/src/bootc_composefs/status.rs`),
* update validation (`crates/lib/src/bootc_composefs/update.rs`),
* rollback determination (`crates/lib/src/bootc_composefs/status.rs`),
* deployment state writing (`crates/lib/src/bootc_composefs/state.rs`).

Filesystem, network and process state is passed explicitly: directory
listings, file contents and syscall outcomes are inputs, and the side
effects a function performs are returned as an explicit trace.  Rust
functions returning `anyhow::Result` become functions into `Except String`.
-/

namespace Bootc

/-! ## String helpers

Structural-recursion replacements for the Rust string operations the
embedded code uses (`split`, `trim`, `strip_prefix`, byte length), so that
every definition evaluates by kernel reduction.
-/

/-- Split a character list at every occurrence of `sep`, keeping empty
pieces, as Rust's `str::split` does. -/
def splitKeep (sep : Char) : List Char → List (List Char)
  | [] => [[]]
  | c :: cs =>
    let r := splitKeep sep cs
    if c = sep then [] :: r
    else
      match r with
      | [] => [[c]]
      | h :: t => (c :: h) :: t

/-- Split a character list on spaces, dropping empty pieces (whitespace
tokenisation of a kernel command line). -/
def splitWsAux : List Char → List Char → List (List Char)
  | [], acc => if acc.isEmpty then [] else [acc.reverse]
  | c :: cs, acc =>
    if c = ' ' then
      if acc.isEmpty then splitWsAux cs [] else acc.reverse :: splitWsAux cs []
    else
      splitWsAux cs (c :: acc)

/-- Is `c` ASCII whitespace (the characters Rust's `str::trim` removes for
the inputs we model)? -/
def isWsChar (c : Char) : Bool :=
  c = ' ' || c = '\t' || c = '\n' || c = '\r'

/-- Rust `str::trim` on a character list. -/
def trimChars (cs : List Char) : List Char :=
  ((cs.dropWhile isWsChar).reverse.dropWhile isWsChar).reverse

/-- Rust `str::trim`. -/
def trimS (s : String) : String :=
  String.mk (trimChars s.data)

/-- Does `p` lead `s` (Rust `str::starts_with`)? -/
def strLeads : List Char → List Char → Bool
  | [], _ => true
  | _ :: _, [] => false
  | a :: ps, b :: ss => a = b && strLeads ps ss

/-- UTF-8 size of one character (`Char::len_utf8`). -/
def charUtf8Len (c : Char) : Nat :=
  if c.val < 0x80 then 1
  else if c.val < 0x800 then 2
  else if c.val < 0x10000 then 3
  else 4

/-- Rust `str::as_bytes().len()`: the UTF-8 byte length of a string. -/
def strBytesLen (s : String) : Nat :=
  s.data.foldl (fun n c => n + charUtf8Len c) 0

/-- The spec-side notion "`needle` occurs somewhere inside `hay`" used to
state properties of error messages. -/
def containsSubstr (needle hay : String) : Prop :=
  ∃ pre suf, hay = pre ++ needle ++ suf

/-! ## Directory entries

Several embedded functions read a directory listing; an entry is a name
together with its file type (`cap_std` `DirEntry::file_type`).
-/

/-- File type of a directory entry. -/
inductive FileType where
  | file
  | dir
  | symlink
  | other
deriving DecidableEq, Repr

/-- A directory entry: name and file type. -/
structure DirEntry where
  name : String
  ftype : FileType
deriving DecidableEq, Repr

/-! ## Digest computation — `crates/lib/src/bootc_composefs/digest.rs`

`compute_composefs_digest` refuses the active root `/`, otherwise reads the
filesystem at the path, boot-transforms it and returns the hex form of the
computed image ID (a SHA-512 sized fs-verity value, 64 bytes).
-/

/-- A SHA-512 sized value (`composefs::fsverity::Sha512HashValue`): 64
bytes. -/
def Sha512Bytes : Type :=
  { l : List Nat // l.length = 64 ∧ ∀ b ∈ l, b < 256 }

/-- Lower-case hex digit for `n < 16`. -/
def hexDigitChar (n : Nat) : Char :=
  Char.ofNat (if n < 10 then 48 + n else 87 + n)

/-- Two lower-case hex digits of one byte. -/
def byteToHexChars (b : Nat) : List Char :=
  [hexDigitChar (b / 16), hexDigitChar (b % 16)]

/-- `FsVerityHashValue::to_hex`: lower-case hex of the 64 bytes. -/
def sha512ToHex (h : Sha512Bytes) : String :=
  String.mk ((h.val.map byteToHexChars).flatten)

/-- Modelled from the spec: the digest pipeline of external crates that
`compute_composefs_digest` drives.  `readTree` stands for
`composefs::fs::read_filesystem` (a pure function of the on-disk tree at a
path), and `imageId` for `transform_for_boot` followed by
`compute_image_id` (a deterministic 512-bit verity hash of the tree). -/
structure DigestEnv (Tree : Type) where
  readTree : String → Tree
  imageId : Tree → Sha512Bytes

/-- `compute_composefs_digest` (digest.rs): reject `/`, else hash the tree
read from `path`.  The optional dumpfile output does not affect the
returned digest and is not modelled further. -/
def compute_composefs_digest {Tree : Type} (env : DigestEnv Tree)
    (path : String) (_writeDumpfileTo : Option String) : Except String String :=
  if path = "/" then
    .error "Cannot operate on active root filesystem; mount separate target instead"
  else
    .ok (sha512ToHex (env.imageId (env.readTree path)))

/-- The digest alphabet. -/
def hexAlphabet : List Char := "0123456789abcdef".data

theorem hexDigitChar_mem_alphabet {n : Nat} (h : n < 16) :
    hexDigitChar n ∈ hexAlphabet := by
  interval_cases n <;> decide

theorem sha512ToHex_length (h : Sha512Bytes) : (sha512ToHex h).length = 128 := by
  obtain ⟨l, hlen, _⟩ := h
  show ((l.map byteToHexChars).flatten).length = 128
  have : ∀ m : List Nat, ((m.map byteToHexChars).flatten).length = 2 * m.length := by
    intro m
    induction m with
    | nil => simp
    | cons b bs ih =>
      simp [byteToHexChars, ih]
      omega
  rw [this, hlen]

theorem sha512ToHex_hex (h : Sha512Bytes) :
    ∀ c ∈ (sha512ToHex h).data, c ∈ hexAlphabet := by
  obtain ⟨l, _, hval⟩ := h
  intro c hc
  have hc' : c ∈ (l.map byteToHexChars).flatten := hc
  rw [List.mem_flatten] at hc'
  obtain ⟨piece, hpiece, hcpiece⟩ := hc'
  rw [List.mem_map] at hpiece
  obtain ⟨b, hb, rfl⟩ := hpiece
  have hb256 : b < 256 := hval b hb
  simp only [byteToHexChars, List.mem_cons, List.not_mem_nil, or_false] at hcpiece
  rcases hcpiece with h1 | h1
  · exact h1 ▸ hexDigitChar_mem_alphabet (by omega)
  · exact h1 ▸ hexDigitChar_mem_alphabet (Nat.mod_lt _ (by omega))

/-- Claim C5: for every input, `compute_composefs_digest` on the path `/`
fails with an error, and the error message contains the text
"active root filesystem". -/
theorem c5_digest_rejects_active_root :
    ∀ (Tree : Type) (env : DigestEnv Tree) (dump : Option String),
      ∃ msg, compute_composefs_digest env "/" dump = .error msg ∧
        containsSubstr "active root filesystem" msg := by
  intro Tree env dump
  refine ⟨"Cannot operate on active root filesystem; mount separate target instead",
    rfl, "Cannot operate on ", "; mount separate target instead", ?_⟩
  decide

/-- Claim C6: for every path other than `/` over an unchanged filesystem
tree, `compute_composefs_digest` succeeds deterministically (two calls
return the same string) and the returned string is 128 lower-case hex
characters (a single 512-bit verity hash). -/
theorem c6_digest_deterministic_hex :
    ∀ (Tree : Type) (env : DigestEnv Tree) (path : String) (dump : Option String),
      path ≠ "/" →
      ∃ d, compute_composefs_digest env path dump = .ok d ∧
        (∀ d2, compute_composefs_digest env path dump = .ok d2 → d2 = d) ∧
        d.length = 128 ∧ ∀ c ∈ d.data, c ∈ hexAlphabet := by
  intro Tree env path dump hne
  refine ⟨sha512ToHex (env.imageId (env.readTree path)), ?_, ?_, ?_, ?_⟩
  · simp [compute_composefs_digest, hne]
  · intro d2 h2
    simp [compute_composefs_digest, hne] at h2
    exact h2.symm
  · exact sha512ToHex_length _
  · exact sha512ToHex_hex _

/-- A concrete digest environment used as the witness input: the tree type
is `Unit` and the image ID is 64 zero bytes. -/
def exDigestEnv : DigestEnv Unit where
  readTree := fun _ => ()
  imageId := fun _ => ⟨List.replicate 64 0, by decide⟩

theorem c6_digest_witness :
    ∃ d, compute_composefs_digest exDigestEnv "/var/tmp/target" none = .ok d ∧
      (∀ d2, compute_composefs_digest exDigestEnv "/var/tmp/target" none = .ok d2 → d2 = d) ∧
      d.length = 128 ∧ ∀ c ∈ d.data, c ∈ hexAlphabet :=
  c6_digest_deterministic_hex Unit exDigestEnv "/var/tmp/target" none (by decide)

/-! ## Kernel detection — `crates/lib/src/kernel.rs`

`find_kernel` prefers a UKI under `boot/EFI/Linux/*.efi`; when several are
present the sorted-first (lexicographically smallest) name is selected;
only when no UKI exists does it fall back to the traditional
`usr/lib/modules/<version>/vmlinuz` layout.
-/

/-- Rust `Path::extension` on a file name: the portion after the last dot,
`none` when there is no dot or the name begins with a dot and has no
other dot. -/
def pathExtOf (name : String) : Option String :=
  match splitKeep '.' name.data with
  | [] => none
  | [_] => none
  | first :: rest =>
    if first = [] ∧ rest.length = 1 then none
    else (rest.getLast?).map String.mk

/-- Join character-list pieces with dots (inverse of `splitKeep '.'` up to
the last piece). -/
def joinDots : List (List Char) → List Char
  | [] => []
  | [x] => x
  | x :: xs => x ++ '.' :: joinDots xs

/-- Rust `Path::file_stem` on a file name: the portion before the
extension, or the whole name when there is no extension. -/
def fileStemOf (name : String) : String :=
  match pathExtOf name with
  | none => name
  | some _ => String.mk (joinDots (splitKeep '.' name.data).dropLast)

/-- Last path component (Rust `Path::file_name` for the paths we build). -/
def lastComponent (p : String) : String :=
  match (splitKeep '/' p.data).getLast? with
  | none => p
  | some cs => String.mk cs

/-- Insert into a sorted list of strings (ascending). -/
def insertSorted (s : String) : List String → List String
  | [] => [s]
  | t :: ts => if s ≤ t then s :: t :: ts else t :: insertSorted s ts

/-- Insertion sort on strings: the order `Vec::sort` uses is the
lexicographic one, which agrees with Lean's `≤` on `String`. -/
def sortStrings : List String → List String
  | [] => []
  | s :: ss => insertSorted s (sortStrings ss)

/-- The root directory of a container image as `find_kernel` inspects it:
the listing of `boot/EFI/Linux` when that directory exists, and the kernel
version under `usr/lib/modules` when `ostree_ext::bootabletree::find_kernel_dir_fs`
finds one (that helper crate is modelled from the spec: it returns the
`usr/lib/modules/<version>` directory holding a `vmlinuz`). -/
structure ImageRoot where
  efiLinuxEntries : Option (List String)
  kernelModulesVersion : Option String

/-- Detected kernel (`Kernel` in kernel.rs). -/
structure KernelM where
  version : String
  unified : Bool
deriving DecidableEq, Repr

/-- `KernelPath` in kernel.rs. -/
inductive KernelPathM where
  | uki (p : String)
  | vmlinuz (path initramfs : String)
deriving DecidableEq, Repr

/-- `find_uki_path` (kernel.rs): filter the `boot/EFI/Linux` listing to
`*.efi` names, sort, take the first. -/
def find_uki_path (root : ImageRoot) : Option String :=
  match root.efiLinuxEntries with
  | none => none
  | some entries =>
    let ukiFiles := entries.filter (fun n => pathExtOf n = some "efi")
    (sortStrings ukiFiles).head?.map (fun filename => "boot/EFI/Linux/" ++ filename)

/-- `find_kernel` (kernel.rs): UKI first, traditional layout second. -/
def find_kernel (root : ImageRoot) : Option (KernelM × KernelPathM) :=
  match find_uki_path root with
  | some ukiPath =>
    let version := fileStemOf (lastComponent ukiPath)
    some (⟨version, true⟩, .uki ukiPath)
  | none =>
    match root.kernelModulesVersion with
    | some version =>
      let modulesDir := "usr/lib/modules/" ++ version
      some (⟨version, false⟩, .vmlinuz (modulesDir ++ "/vmlinuz") (modulesDir ++ "/initramfs.img"))
    | none => none

theorem insertSorted_ne_nil (s : String) (l : List String) : insertSorted s l ≠ [] := by
  cases l with
  | nil => simp [insertSorted]
  | cons t ts =>
    simp only [insertSorted]
    split <;> simp

theorem mem_insertSorted {x s : String} {l : List String} :
    x ∈ insertSorted s l ↔ x = s ∨ x ∈ l := by
  induction l with
  | nil => simp [insertSorted]
  | cons t ts ih =>
    simp only [insertSorted]
    split
    · simp
    · simp only [List.mem_cons, ih]
      tauto

theorem mem_sortStrings {x : String} {l : List String} :
    x ∈ sortStrings l ↔ x ∈ l := by
  induction l with
  | nil => simp [sortStrings]
  | cons s ss ih =>
    simp only [sortStrings, mem_insertSorted, List.mem_cons, ih]

theorem head_insertSorted (s : String) (l : List String) :
    (insertSorted s l).head? = some (match l.head? with
      | none => s
      | some t => if s ≤ t then s else t) := by
  cases l with
  | nil => simp [insertSorted]
  | cons t ts =>
    simp only [insertSorted, List.head?_cons]
    split <;> simp

theorem sortStrings_head_le {l : List String} {m : String} {rest : List String}
    (hsort : sortStrings l = m :: rest) : m ∈ l ∧ ∀ x ∈ l, m ≤ x := by
  induction l generalizing m rest with
  | nil => simp [sortStrings] at hsort
  | cons s ss ih =>
    simp only [sortStrings] at hsort
    have hhead : (insertSorted s (sortStrings ss)).head? = some m := by
      rw [hsort]; rfl
    rw [head_insertSorted] at hhead
    cases hss : (sortStrings ss).head? with
    | none =>
      have hnil : sortStrings ss = [] := by
        cases h : sortStrings ss with
        | nil => rfl
        | cons a b => rw [h] at hss; simp at hss
      have hssnil : ss = [] := by
        cases h : ss with
        | nil => rfl
        | cons a b =>
          rw [h] at hnil
          simp only [sortStrings] at hnil
          exact absurd hnil (insertSorted_ne_nil _ _)
      rw [hss] at hhead
      simp at hhead
      subst hhead
      subst hssnil
      simp
    | some t =>
      rw [hss] at hhead
      simp only [Option.some.injEq] at hhead
      obtain ⟨rest2, hrest2⟩ : ∃ r, sortStrings ss = t :: r := by
        cases h : sortStrings ss with
        | nil => rw [h] at hss; simp at hss
        | cons a b =>
          rw [h] at hss
          simp only [List.head?_cons, Option.some.injEq] at hss
          exact ⟨b, by rw [hss]⟩
      have htmem : t ∈ ss ∧ ∀ x ∈ ss, t ≤ x := ih hrest2
      by_cases hle : s ≤ t
      · rw [if_pos hle] at hhead
        subst hhead
        refine ⟨List.mem_cons_self _ _, ?_⟩
        intro x hx
        rcases List.mem_cons.mp hx with rfl | hx
        · exact le_refl _
        · exact le_trans hle (htmem.2 x hx)
      · rw [if_neg hle] at hhead
        subst hhead
        refine ⟨List.mem_cons_of_mem _ htmem.1, ?_⟩
        intro x hx
        rcases List.mem_cons.mp hx with rfl | hx
        · exact le_of_not_le hle
        · exact htmem.2 x hx

/-- Claim C8: kernel detection is deterministic and prefers a UKI.  If any
`boot/EFI/Linux/*.efi` entry exists the detected kernel is a UKI (whatever
`usr/lib/modules` holds); the selected file is the lexicographically
smallest `.efi` name; only when no UKI exists does detection fall back to
the traditional `vmlinuz` layout. -/
theorem c8_kernel_detection :
    ∀ root : ImageRoot,
      (∀ entries, root.efiLinuxEntries = some entries →
        ∀ n ∈ entries, pathExtOf n = some "efi" →
          ∃ sel,
            find_uki_path root = some ("boot/EFI/Linux/" ++ sel) ∧
            sel ∈ entries ∧ pathExtOf sel = some "efi" ∧
            (∀ x ∈ entries, pathExtOf x = some "efi" → sel ≤ x) ∧
            ∃ k p, find_kernel root = some (k, p) ∧ k.unified = true ∧
              p = KernelPathM.uki ("boot/EFI/Linux/" ++ sel)) ∧
      (find_uki_path root = none →
        find_kernel root = root.kernelModulesVersion.map (fun version =>
          (⟨version, false⟩, KernelPathM.vmlinuz
            ("usr/lib/modules/" ++ version ++ "/vmlinuz")
            ("usr/lib/modules/" ++ version ++ "/initramfs.img")))) := by
  intro root
  constructor
  · intro entries hentries n hn hefi
    have hmemf : n ∈ entries.filter (fun n => pathExtOf n = some "efi") := by
      rw [List.mem_filter]
      exact ⟨hn, by simp [hefi]⟩
    obtain ⟨m, rest, hsort⟩ :
        ∃ m rest, sortStrings (entries.filter (fun n => pathExtOf n = some "efi")) = m :: rest := by
      cases h : sortStrings (entries.filter (fun n => pathExtOf n = some "efi")) with
      | nil =>
        exfalso
        have : n ∈ sortStrings (entries.filter (fun n => pathExtOf n = some "efi")) :=
          mem_sortStrings.mpr hmemf
        rw [h] at this
        simp at this
      | cons a b => exact ⟨a, b, rfl⟩
    have hmin := sortStrings_head_le hsort
    have hmmem := List.mem_filter.mp hmin.1
    refine ⟨m, ?_, hmmem.1, by simpa using hmmem.2, ?_, ?_⟩
    · simp [find_uki_path, hentries, hsort]
    · intro x hx hxefi
      exact hmin.2 x (List.mem_filter.mpr ⟨hx, by simp [hxefi]⟩)
    · have hpath : find_uki_path root = some ("boot/EFI/Linux/" ++ m) := by
        simp [find_uki_path, hentries, hsort]
      refine ⟨⟨fileStemOf (lastComponent ("boot/EFI/Linux/" ++ m)), true⟩,
        KernelPathM.uki ("boot/EFI/Linux/" ++ m), ?_, rfl, rfl⟩
      simp [find_kernel, hpath]
  · intro hnone
    cases hver : root.kernelModulesVersion with
    | none => simp [find_kernel, hnone, hver]
    | some version => simp [find_kernel, hnone, hver]

/-! ## SELinux policy compatibility — `crates/lib/src/bootc_composefs/selinux.rs`

`find_latest_policy_file` scans a policy directory for the
highest-versioned `policy.<N>` regular file;
`get_selinux_policy_for_deployment` resolves a deployment's policy file
hash through `etc/selinux/config`; `are_selinux_policies_compatible`
compares booted and target deployment.
-/

/-- Fold the digits of a decimal literal. -/
def digitsToNat (ds : List Char) : Nat :=
  ds.foldl (fun a c => a * 10 + (c.toNat - 48)) 0

/-- Rust `str::parse::<i32>()`: optional sign, decimal digits, i32 range. -/
def parseI32 (s : String) : Except String Int :=
  match s.data with
  | [] => .error "cannot parse integer from empty string"
  | c :: rest =>
    let signDigits : Bool × List Char :=
      if c = '-' then (true, rest)
      else if c = '+' then (false, rest)
      else (false, c :: rest)
    let neg := signDigits.1
    let digits := signDigits.2
    if digits.isEmpty then .error "invalid digit found in string"
    else if digits.all Char.isDigit then
      let v : Int := (digitsToNat digits : Nat)
      let iv : Int := if neg then -v else v
      if -(2 ^ 31) ≤ iv ∧ iv ≤ 2 ^ 31 - 1 then .ok iv
      else .error "number too large to fit in target type"
    else .error "invalid digit found in string"

/-- `filename.strip_prefix(POLICY_FILE_PREFIX)` with `POLICY_FILE_PREFIX =
"policy."`. -/
def stripPolicyPfx (name : String) : Option String :=
  if strLeads "policy.".data name.data then some (String.mk (name.data.drop 7)) else none

/-- The loop of `find_latest_policy_file` (selinux.rs): running
`highest_policy_version` (initially `-1`) and `latest_policy_name`
(initially `None`); non-files and names without the `policy.` prefix are
skipped; a version that fails integer parsing aborts the whole scan. -/
def findLatestLoop : List DirEntry → Int → Option String → Except String (Option String)
  | [], _, latest => .ok latest
  | e :: rest, highest, latest =>
    if e.ftype ≠ FileType.file then findLatestLoop rest highest latest
    else
      match stripPolicyPfx e.name with
      | none => findLatestLoop rest highest latest
      | some version =>
        match parseI32 version with
        | .error msg => .error ("Parsing " ++ version ++ " as int: " ++ msg)
        | .ok v =>
          if v < highest then findLatestLoop rest highest latest
          else findLatestLoop rest v (some e.name)

/-- `find_latest_policy_file` (selinux.rs). -/
def find_latest_policy_file (entries : List DirEntry) : Except String String :=
  match findLatestLoop entries (-1) none with
  | .error e => .error e
  | .ok none => .error "Failed to get latest SELinux policy"
  | .ok (some name) => .ok name

/-- An entry `find_latest_policy_file` does not skip: a regular file whose
name carries the `policy.` prefix. -/
def isPolicyCandidate (e : DirEntry) : Bool :=
  decide (e.ftype = FileType.file) && (stripPolicyPfx e.name).isSome

theorem findLatestLoop_skip_all (entries : List DirEntry) (highest : Int)
    (latest : Option String)
    (h : ∀ e ∈ entries, e.ftype ≠ FileType.file ∨ stripPolicyPfx e.name = none) :
    findLatestLoop entries highest latest = .ok latest := by
  induction entries generalizing highest latest with
  | nil => rfl
  | cons e rest ih =>
    have he := h e (List.mem_cons_self _ _)
    have hrest : ∀ x ∈ rest, x.ftype ≠ FileType.file ∨ stripPolicyPfx x.name = none :=
      fun x hx => h x (List.mem_cons_of_mem _ hx)
    rcases he with he | he
    · simp only [findLatestLoop, if_pos he]
      exact ih _ _ hrest
    · by_cases hft : e.ftype ≠ FileType.file
      · simp only [findLatestLoop, if_pos hft]
        exact ih _ _ hrest
      · simp only [findLatestLoop, if_neg hft, he]
        exact ih _ _ hrest

theorem findLatestLoop_filter (entries : List DirEntry) (highest : Int)
    (latest : Option String) :
    findLatestLoop entries highest latest =
      findLatestLoop (entries.filter isPolicyCandidate) highest latest := by
  induction entries generalizing highest latest with
  | nil => rfl
  | cons e rest ih =>
    by_cases hft : e.ftype = FileType.file
    · cases hstrip : stripPolicyPfx e.name with
      | none =>
        have hcand : isPolicyCandidate e = false := by
          simp [isPolicyCandidate, hstrip]
        simp only [findLatestLoop, if_neg (by simp [hft] : ¬e.ftype ≠ FileType.file), hstrip]
        rw [List.filter_cons_of_neg (by simp [hcand])]
        exact ih _ _
      | some version =>
        have hcand : isPolicyCandidate e = true := by
          simp [isPolicyCandidate, hft, hstrip]
        rw [List.filter_cons_of_pos (by simp [hcand])]
        simp only [findLatestLoop, if_neg (by simp [hft] : ¬e.ftype ≠ FileType.file), hstrip]
        cases parseI32 version with
        | error msg => rfl
        | ok v =>
          by_cases hv : v < highest
          · simp only [if_pos hv]
            exact ih _ _
          · simp only [if_neg hv]
            exact ih _ _
    · have hcand : isPolicyCandidate e = false := by
        simp [isPolicyCandidate, hft]
      simp only [findLatestLoop, if_pos hft]
      rw [List.filter_cons_of_neg (by simp [hcand])]
      exact ih _ _

/-- Counterexample to claim C9 as stated: on a directory with no
`policy.<N>` file the error message is
"Failed to get latest SELinux policy", not
"no SELinux policy file found". -/
theorem c9_message_counterexample :
    find_latest_policy_file [] = .error "Failed to get latest SELinux policy" ∧
    "Failed to get latest SELinux policy" ≠ "no SELinux policy file found" := by
  exact ⟨rfl, by decide⟩

/-- Claim C9 (amended: the no-policy error message is
"Failed to get latest SELinux policy", not
"no SELinux policy file found"): when the directory has no regular
`policy.`-prefixed file the scan fails with that message; non-file entries
and names without the `policy.` prefix are ignored; a non-integer version
suffix (`policy.abc`) surfaces an integer parse error. -/
theorem c9_policy_selection :
    (∀ entries : List DirEntry,
      (∀ e ∈ entries, e.ftype ≠ FileType.file ∨ stripPolicyPfx e.name = none) →
        find_latest_policy_file entries = .error "Failed to get latest SELinux policy") ∧
    (∀ entries : List DirEntry,
      find_latest_policy_file entries =
        find_latest_policy_file (entries.filter isPolicyCandidate)) ∧
    (∃ msg, find_latest_policy_file [⟨"policy.abc", FileType.file⟩] = .error msg ∧
      containsSubstr "Parsing abc as int" msg) := by
  refine ⟨?_, ?_, ?_⟩
  · intro entries h
    unfold find_latest_policy_file
    rw [findLatestLoop_skip_all entries (-1) none h]
  · intro entries
    unfold find_latest_policy_file
    rw [findLatestLoop_filter entries (-1) none]
  · refine ⟨"Parsing abc as int: invalid digit found in string", rfl,
      "", ": invalid digit found in string", ?_⟩
    decide

/-- A witness for the hypothesis-bearing part of `c9_policy_selection`: a
directory holding only a non-`policy.` file yields the no-policy error. -/
theorem c9_policy_selection_witness :
    find_latest_policy_file [⟨"other.txt", FileType.file⟩] =
      .error "Failed to get latest SELinux policy" :=
  c9_policy_selection.1 [⟨"other.txt", FileType.file⟩] (by decide)

/-- The effects `are_selinux_policies_compatible` may perform against the
filesystem: acquiring a deployment root (the live `/` for the booted
deployment, a composefs mount otherwise), probing/reading
`etc/selinux/config`, opening the policy directory, hashing a policy
file. -/
inductive SEffect where
  | openLiveRoot
  | mountImage (id : String)
  | readConfig (id : String)
  | openPolicyDir (id : String) (path : String)
  | hashPolicyFile (id : String) (path : String)
deriving DecidableEq, Repr

/-- A deployment root as the SELinux check reads it: the lines of
`etc/selinux/config` when that file exists, the listing of a policy
directory by path, and the SHA-256 hash (`compute_policy_file_hash`,
hex-encoded) of a file by path (`none` when opening fails). -/
structure DeployRoot where
  selinuxConfigLines : Option (List String)
  policyDirEntries : String → Option (List DirEntry)
  policyFileHash : String → Option String

/-- The effect of acquiring a deployment root: the live `/` for the booted
deployment, a composefs mount otherwise. -/
def rootAcquireEff (bootedDigest deplId : String) : SEffect :=
  if deplId = bootedDigest then SEffect.openLiveRoot else SEffect.mountImage deplId

/-- The policy directory path derived from a `SELINUXTYPE=` line:
`etc/selinux/<type>/policy` with the type taken after the first `=` and
trimmed. -/
def policyDirPathOf (t : List Char) : String :=
  "etc/selinux/" ++ String.mk (trimChars t) ++ "/policy"

/-- `get_selinux_policy_for_deployment` (selinux.rs): `Ok(None)` when the
deployment has no `etc/selinux/config`; otherwise resolve `SELINUXTYPE`,
find the latest `policy.<N>` file and return its hash. -/
def get_selinux_policy_for_deployment (roots : String → DeployRoot)
    (bootedDigest deplId : String) : Except String (Option String) × List SEffect :=
  match (roots deplId).selinuxConfigLines with
  | none => (.ok none, [rootAcquireEff bootedDigest deplId, .readConfig deplId])
  | some lines =>
    match lines.find? (fun l => strLeads "SELINUXTYPE=".data l.data) with
    | none => (.error "Falied to find SELINUXTYPE",
        [rootAcquireEff bootedDigest deplId, .readConfig deplId])
    | some line =>
      match (splitKeep '=' line.data).get? 1 with
      | none => (.error "Failed to parse SELINUXTYPE",
          [rootAcquireEff bootedDigest deplId, .readConfig deplId])
      | some t =>
        match (roots deplId).policyDirEntries (policyDirPathOf t) with
        | none => (.error "Opening selinux policy dir",
            [rootAcquireEff bootedDigest deplId, .readConfig deplId])
        | some entries =>
          match find_latest_policy_file entries with
          | .error e => (.error e,
              [rootAcquireEff bootedDigest deplId, .readConfig deplId,
                .openPolicyDir deplId (policyDirPathOf t)])
          | .ok policyName =>
            match (roots deplId).policyFileHash (policyDirPathOf t ++ "/" ++ policyName) with
            | none => (.error "Opening policy file",
                [rootAcquireEff bootedDigest deplId, .readConfig deplId,
                  .openPolicyDir deplId (policyDirPathOf t)])
            | some hash => (.ok (some hash),
                [rootAcquireEff bootedDigest deplId, .readConfig deplId,
                  .openPolicyDir deplId (policyDirPathOf t),
                  .hashPolicyFile deplId (policyDirPathOf t ++ "/" ++ policyName)])

/-- `are_selinux_policies_compatible` (selinux.rs).  `selinuxEnabled` is
the `crate::lsm::selinux_enabled()` probe (modelled from the spec: a probe
of the running host, independent of the two deployments). -/
def are_selinux_policies_compatible (selinuxEnabled : Bool)
    (roots : String → DeployRoot) (bootedDigest deplId : String) :
    Except String Bool × List SEffect :=
  if !selinuxEnabled then (.ok true, [])
  else
    match get_selinux_policy_for_deployment roots bootedDigest bootedDigest with
    | (.error e, effs) => (.error e, effs)
    | (.ok bootedHash, effs1) =>
      match get_selinux_policy_for_deployment roots bootedDigest deplId with
      | (.error e, effs2) => (.error e, effs1 ++ effs2)
      | (.ok deplHash, effs2) =>
        let m := match bootedHash, deplHash with
          | some b, some d => decide (b = d)
          | some _, none => false
          | none, some _ => false
          | none, none => true
        (.ok m, effs1 ++ effs2)

/-- Claim C10: when SELinux is not enabled on the running host the
compatibility check returns `true` for every pair of deployments without
touching any deployment root, config or policy file (the effect trace is
empty), whatever the deployments hold. -/
theorem c10_selinux_disabled_trivial :
    ∀ (roots : String → DeployRoot) (bootedDigest deplId : String),
      are_selinux_policies_compatible false roots bootedDigest deplId = (.ok true, []) := by
  intro roots bootedDigest deplId
  rfl

/-- A deployment root with an SELinux config and one policy file hashing
to `"aa"`. -/
def c4RootBooted : DeployRoot where
  selinuxConfigLines := some ["SELINUXTYPE=targeted"]
  policyDirEntries := fun p =>
    if p = "etc/selinux/targeted/policy" then some [⟨"policy.33", .file⟩] else none
  policyFileHash := fun p =>
    if p = "etc/selinux/targeted/policy/policy.33" then some "aa" else none

/-- A deployment root with no SELinux config at all. -/
def c4RootTarget : DeployRoot where
  selinuxConfigLines := none
  policyDirEntries := fun _ => none
  policyFileHash := fun _ => none

/-- Roots for the C4 counterexample: the booted deployment `"bb"` has an
SELinux config, the target `"tt"` does not. -/
def c4Roots : String → DeployRoot := fun id => if id = "bb" then c4RootBooted else c4RootTarget

/-- Counterexample to claim C4 as stated: with SELinux disabled on the
host, the check returns `true` although exactly one of the two deployments
has an `etc/selinux/config` — the claim demands `false` for such a pair. -/
theorem c4_selinux_disabled_counterexample :
    (are_selinux_policies_compatible false c4Roots "bb" "tt").1 = .ok true ∧
    (c4Roots "bb").selinuxConfigLines ≠ none ∧
    (c4Roots "tt").selinuxConfigLines = none := by
  refine ⟨rfl, ?_, rfl⟩
  decide

theorem getPolicy_ok_none_iff (roots : String → DeployRoot) (bootedDigest deplId : String)
    (r : Option String)
    (h : (get_selinux_policy_for_deployment roots bootedDigest deplId).1 = .ok r) :
    (r = none ↔ (roots deplId).selinuxConfigLines = none) := by
  unfold get_selinux_policy_for_deployment at h
  cases hcfg : (roots deplId).selinuxConfigLines with
  | none =>
    rw [hcfg] at h
    simp only at h
    cases h
    simp [hcfg]
  | some lines =>
    rw [hcfg] at h
    simp only at h
    split at h
    · cases h
    · split at h
      · cases h
      · split at h
        · cases h
        · split at h
          · cases h
          · split at h
            · cases h
            · cases h
              simp [hcfg]

/-- Claim C4 (amended: the property holds when SELinux is enabled on the
running host; with SELinux disabled the check short-circuits to `true`,
see `c4_selinux_disabled_counterexample`): for every pair of booted and
target deployments whose policy resolutions succeed, the check returns
`true` iff both deployments lack an `etc/selinux/config` or the two
resolved policy-file hashes are equal; a pair where exactly one side has a
config resolves to `none` versus `some`, hence the check returns
`false`. -/
theorem c4_policy_compat_when_enabled
    (roots : String → DeployRoot) (bootedDigest deplId : String)
    (bootedHash deplHash : Option String)
    (hb : (get_selinux_policy_for_deployment roots bootedDigest bootedDigest).1 = .ok bootedHash)
    (hd : (get_selinux_policy_for_deployment roots bootedDigest deplId).1 = .ok deplHash) :
    (are_selinux_policies_compatible true roots bootedDigest deplId).1 =
      .ok (decide (bootedHash = deplHash)) ∧
    ((are_selinux_policies_compatible true roots bootedDigest deplId).1 = .ok true ↔
      ((roots bootedDigest).selinuxConfigLines = none ∧
        (roots deplId).selinuxConfigLines = none) ∨
      (∃ h, bootedHash = some h ∧ deplHash = some h)) ∧
    (bootedHash = none ↔ (roots bootedDigest).selinuxConfigLines = none) ∧
    (deplHash = none ↔ (roots deplId).selinuxConfigLines = none) := by
  have hbiff := getPolicy_ok_none_iff roots bootedDigest bootedDigest bootedHash hb
  have hdiff := getPolicy_ok_none_iff roots bootedDigest deplId deplHash hd
  rcases hpb : get_selinux_policy_for_deployment roots bootedDigest bootedDigest with ⟨rb, eb⟩
  rcases hpd : get_selinux_policy_for_deployment roots bootedDigest deplId with ⟨rd, ed⟩
  rw [hpb] at hb
  rw [hpd] at hd
  simp only at hb hd
  subst hb
  subst hd
  have hmain : (are_selinux_policies_compatible true roots bootedDigest deplId).1 =
      .ok (decide (bootedHash = deplHash)) := by
    unfold are_selinux_policies_compatible
    rw [hpb, hpd]
    cases bootedHash <;> cases deplHash <;> simp
  refine ⟨hmain, ?_, hbiff, hdiff⟩
  rw [hmain]
  simp only [Except.ok.injEq, decide_eq_true_eq]
  constructor
  · intro heq
    cases hbH : bootedHash with
    | none =>
      left
      rw [hbH] at heq hbiff
      rw [← heq] at hdiff
      exact ⟨hbiff.mp rfl, hdiff.mp rfl⟩
    | some b =>
      right
      exact ⟨b, rfl, heq.symm.trans hbH⟩
  · intro h
    rcases h with ⟨hc1, hc2⟩ | ⟨x, h1, h2⟩
    · rw [hbiff.mpr hc1, hdiff.mpr hc2]
    · rw [h1, h2]

/-- Roots for the C4 witness: both deployments carry the same policy. -/
def c4RootsW : String → DeployRoot := fun _ => c4RootBooted

/-- Witness for `c4_policy_compat_when_enabled` at a concrete pair: two
deployments with the same config and hash-equal policy files are
compatible. -/
theorem c4_policy_compat_witness :
    (are_selinux_policies_compatible true c4RootsW "bb" "tt").1 = .ok true := by
  have h := c4_policy_compat_when_enabled c4RootsW "bb" "tt" (some "aa") (some "aa") rfl rfl
  simpa using h.1

/-! ## Soft-reboot capability — `crates/lib/src/bootc_composefs/status.rs`

`is_soft_rebootable` compares a deployment's boot digest and kernel
command line against the booted ones.  The `Cmdline` type it receives is
the `bootc_kernel_cmdline` crate's view of a raw command-line string;
modelled from the spec: a kernel command line is a whitespace-separated
sequence of `key[=value]` parameters and `as_bytes()` is the UTF-8 byte
view of the raw string.
-/

/-- `composefs_consts::COMPOSEFS_CMDLINE` (the crate's consts module):
the `composefs` kernel command-line key. -/
def COMPOSEFS_CMDLINE : String := "composefs"

/-- One command-line parameter: key and optional value (split at the first
`=` of the token). -/
structure Param where
  key : String
  value : Option String
deriving DecidableEq, Repr

/-- Split one token at its first `=`. -/
def takeKeyVal : List Char → List Char × Option (List Char)
  | [] => ([], none)
  | c :: cs =>
    if c = '=' then ([], some cs)
    else
      let r := takeKeyVal cs
      (c :: r.1, r.2)

/-- A parameter from one whitespace-delimited token. -/
def paramOfTok (tok : List Char) : Param :=
  ⟨String.mk (takeKeyVal tok).1, ((takeKeyVal tok).2).map String.mk⟩

/-- Parse a raw command line into its parameters. -/
def parseCmdline (s : String) : List Param :=
  (splitWsAux s.data []).map paramOfTok

/-- `compare_cmdline_skip_cfs` (status.rs): every parameter of `first`
whose key is not `composefs` must be found, with equal value, in
`second`. -/
def compare_cmdline_skip_cfs (first second : List Param) : Bool :=
  first.all fun p =>
    if p.key = COMPOSEFS_CMDLINE then true
    else
      match second.find? (fun b => decide (b = p)) with
      | none => false
      | some f => decide (f.value = p.value)

/-- `is_soft_rebootable` (status.rs): boot digests must be equal, the raw
command lines must have the same byte length, and the two parameter lists
must contain each other's non-`composefs` parameters. -/
def is_soft_rebootable (deplBootDigest bootedBootDigest deplCmdline bootedCmdline : String) :
    Bool :=
  if deplBootDigest ≠ bootedBootDigest then false
  else if strBytesLen deplCmdline ≠ strBytesLen bootedCmdline then false
  else
    compare_cmdline_skip_cfs (parseCmdline deplCmdline) (parseCmdline bootedCmdline)
      && compare_cmdline_skip_cfs (parseCmdline bootedCmdline) (parseCmdline deplCmdline)

/-- The claim's reading of "the command line with the `composefs=` token
disregarded": the parameter sequence without `composefs` parameters. -/
def stripCfs (ps : List Param) : List Param :=
  ps.filter (fun p => !decide (p.key = COMPOSEFS_CMDLINE))

/-- Counterexample to claim C3 as stated: the two command lines
`a=1 composefs=xx` and `a=1 composefs=y` are equal once the `composefs=`
token is disregarded, and the boot digests are equal, yet
`is_soft_rebootable` returns `false`: the byte-length comparison it
performs covers the raw command lines `composefs=` tokens included. -/
theorem c3_length_check_counterexample :
    is_soft_rebootable "d" "d" "a=1 composefs=xx" "a=1 composefs=y" = false ∧
    stripCfs (parseCmdline "a=1 composefs=xx") = stripCfs (parseCmdline "a=1 composefs=y") := by
  constructor
  · rfl
  · rfl

theorem compare_cmdline_skip_cfs_iff (first second : List Param) :
    compare_cmdline_skip_cfs first second = true ↔
      ∀ p ∈ first, p.key ≠ COMPOSEFS_CMDLINE → p ∈ second := by
  unfold compare_cmdline_skip_cfs
  rw [List.all_eq_true]
  constructor
  · intro h p hp hkey
    have hpred := h p hp
    rw [if_neg hkey] at hpred
    cases hf : second.find? (fun b => decide (b = p)) with
    | none =>
      rw [hf] at hpred
      cases hpred
    | some f =>
      have hfp : f = p := by simpa using List.find?_some hf
      exact hfp ▸ List.mem_of_find?_eq_some hf
  · intro h p hp
    by_cases hkey : p.key = COMPOSEFS_CMDLINE
    · rw [if_pos hkey]
    · rw [if_neg hkey]
      cases hf : second.find? (fun b => decide (b = p)) with
      | none =>
        exfalso
        have := List.find?_eq_none.mp hf p (h p hp hkey)
        simp at this
      | some f =>
        have hfp : f = p := by simpa using List.find?_some hf
        simp [hfp]

/-- Claim C3 (amended: besides the boot-digest equality, the code requires
the raw command lines to have equal byte length — `composefs=` tokens
included — and, disregarding `composefs` parameters, each command line's
parameters to occur in the other; it does not require the parameter
sequences to be equal): characterization of `is_soft_rebootable`. -/
theorem c3_soft_rebootable_characterization :
    ∀ deplBootDigest bootedBootDigest deplCmdline bootedCmdline : String,
      is_soft_rebootable deplBootDigest bootedBootDigest deplCmdline bootedCmdline = true ↔
        (deplBootDigest = bootedBootDigest ∧
         strBytesLen deplCmdline = strBytesLen bootedCmdline ∧
         (∀ p ∈ parseCmdline deplCmdline, p.key ≠ COMPOSEFS_CMDLINE →
            p ∈ parseCmdline bootedCmdline) ∧
         (∀ p ∈ parseCmdline bootedCmdline, p.key ≠ COMPOSEFS_CMDLINE →
            p ∈ parseCmdline deplCmdline)) := by
  intro d bd dc bc
  by_cases h1 : d = bd
  · by_cases h2 : strBytesLen dc = strBytesLen bc
    · simp [is_soft_rebootable, h1, h2, Bool.and_eq_true, compare_cmdline_skip_cfs_iff]
    · simp [is_soft_rebootable, h1, h2]
  · simp [is_soft_rebootable, h1]

/-- Witness for `c3_soft_rebootable_characterization` at a concrete input:
two deployments sharing a boot digest whose command lines agree up to the
placement of the `composefs=` token are soft-reboot capable. -/
theorem c3_soft_rebootable_witness :
    is_soft_rebootable "d" "d" "ro composefs=ab" "composefs=ab ro" = true :=
  (c3_soft_rebootable_characterization "d" "d" "ro composefs=ab" "composefs=ab ro").mpr
    (by refine ⟨rfl, rfl, ?_, ?_⟩ <;> decide)

/-! ## Update validation — `crates/lib/src/bootc_composefs/update.rs`

`validate_update` decides, from the computed image ID of the incoming
image, whether a pull proceeds, is skipped, or only rewrites the booted
origin.  The filesystem state it consults (bootloader kind, boot type,
existence of staged artifacts and of the target state directory) is passed
in; the removals it performs are returned as a trace of effects.
-/

/-- `UpdateAction` (update.rs). -/
inductive UpdateAction where
  | skip
  | proceed
  | updateOrigin
deriving DecidableEq, Repr

/-- `spec::Bootloader` (modelled from the spec: the loader in effect is
either GRUB or systemd-boot). -/
inductive Bootloader where
  | grub
  | systemd
deriving DecidableEq, Repr

/-- `boot::BootType` (modelled from the spec: the boot scheme tag recorded
in a deployment's origin, `bls` or `uki`). -/
inductive BootType where
  | bls
  | uki
deriving DecidableEq, Repr

/-- Removals `validate_update` performs before proceeding. -/
inductive UpdateEffect where
  | rmStagedType1Entries
  | rmStagedGrubUserCfg
  | rmStateDir (id : String)
deriving DecidableEq, Repr

/-- The deployments of the Host view, by verity digest.  Modelled from the
spec (the `Host` type lives in the crate's `spec` module):
`host.all_composefs_deployments()` yields the booted, staged, rollback and
other deployments. -/
structure HostDeployments where
  bootedVerity : String
  stagedVerity : Option String
  rollbackVerity : Option String
  otherVerities : List String

/-- Modelled from the spec: `Host::all_composefs_deployments`. -/
def allComposefsDeployments (h : HostDeployments) : List String :=
  h.bootedVerity :: (h.stagedVerity.toList ++ h.rollbackVerity.toList ++ h.otherVerities)

/-- `rm_staged_type1_ent` (update.rs): remove the staged type-1 entry
directory when it exists. -/
def rm_staged_type1_ent (stagedType1Exists : Bool) : List UpdateEffect :=
  if stagedType1Exists then [.rmStagedType1Entries] else []

/-- `validate_update` (update.rs).  `imageIdHex` is the hex image ID
computed from the pulled config (`create_filesystem` +
`transform_for_boot` + `compute_image_id`, external crates); the booted
deployment's digest is `host.bootedVerity` (the `composefs=` command-line
value). -/
def validate_update (host : HostDeployments) (imageIdHex : String)
    (bootloader : Bootloader) (bootedBootType : BootType)
    (stagedType1Exists userCfgStagedExists stateDirHasImage : Bool)
    (isSwitch : Bool) : Except String (UpdateAction × List UpdateEffect) :=
  if imageIdHex = host.bootedVerity then
    .ok (if isSwitch then .updateOrigin else .skip, [])
  else if imageIdHex ∈ allComposefsDeployments host then
    .ok (.skip, [])
  else
    .ok (.proceed,
      (match bootloader, bootedBootType with
        | .grub, .bls => rm_staged_type1_ent stagedType1Exists
        | .grub, .uki => if userCfgStagedExists then [.rmStagedGrubUserCfg] else []
        | .systemd, _ => rm_staged_type1_ent stagedType1Exists) ++
      (if stateDirHasImage then [UpdateEffect.rmStateDir imageIdHex] else []))

/-- The staged bootloader artifact `validate_update` garbage-collects, and
whether it exists, for a given loader/boot-type combination. -/
def stagedBootArtifact (bootloader : Bootloader) (bootedBootType : BootType)
    (stagedType1Exists userCfgStagedExists : Bool) : Bool × UpdateEffect :=
  match bootloader, bootedBootType with
  | .grub, .uki => (userCfgStagedExists, .rmStagedGrubUserCfg)
  | _, _ => (stagedType1Exists, .rmStagedType1Entries)

/-- Claim C2: if the computed image ID equals the booted deployment's ID
the result is `UpdateOrigin` for `switch` and `Skip` for `upgrade`, with
nothing removed; if it instead equals the ID of any existing deployment
(staged, rollback or other) the result is `Skip` with nothing removed;
only otherwise does it return `Proceed`, after removing any prior staged
bootloader artifact and any existing `state/deploy/<ID>` directory. -/
theorem c2_validate_update_cases :
    ∀ (host : HostDeployments) (imageIdHex : String) (bootloader : Bootloader)
      (bootedBootType : BootType)
      (stagedType1Exists userCfgStagedExists stateDirHasImage isSwitch : Bool),
      (imageIdHex = host.bootedVerity →
        validate_update host imageIdHex bootloader bootedBootType
            stagedType1Exists userCfgStagedExists stateDirHasImage isSwitch =
          .ok (if isSwitch then .updateOrigin else .skip, [])) ∧
      (imageIdHex ≠ host.bootedVerity →
        (imageIdHex ∈ host.stagedVerity.toList ∨ imageIdHex ∈ host.rollbackVerity.toList ∨
          imageIdHex ∈ host.otherVerities) →
        validate_update host imageIdHex bootloader bootedBootType
            stagedType1Exists userCfgStagedExists stateDirHasImage isSwitch =
          .ok (.skip, [])) ∧
      (imageIdHex ∉ allComposefsDeployments host →
        ∃ effs,
          validate_update host imageIdHex bootloader bootedBootType
              stagedType1Exists userCfgStagedExists stateDirHasImage isSwitch =
            .ok (.proceed, effs) ∧
          (UpdateEffect.rmStateDir imageIdHex ∈ effs ↔ stateDirHasImage = true) ∧
          ((stagedBootArtifact bootloader bootedBootType
              stagedType1Exists userCfgStagedExists).2 ∈ effs ↔
            (stagedBootArtifact bootloader bootedBootType
              stagedType1Exists userCfgStagedExists).1 = true)) ∧
      (∀ act effs,
        validate_update host imageIdHex bootloader bootedBootType
            stagedType1Exists userCfgStagedExists stateDirHasImage isSwitch =
          .ok (act, effs) →
        act = .proceed →
        imageIdHex ≠ host.bootedVerity ∧ imageIdHex ∉ allComposefsDeployments host) := by
  intro host imageIdHex bootloader bootedBootType st ucs sdhi isw
  refine ⟨?_, ?_, ?_, ?_⟩
  · intro hb
    simp [validate_update, hb]
  · intro hb hmem
    have hcontains : imageIdHex ∈ allComposefsDeployments host := by
      simp only [allComposefsDeployments, List.mem_cons, List.mem_append]
      tauto
    simp [validate_update, hb, hcontains]
  · intro hnot
    have hb : imageIdHex ≠ host.bootedVerity := by
      intro h
      exact hnot (h ▸ List.mem_cons_self _ _)
    refine ⟨(match bootloader, bootedBootType with
        | .grub, .bls => rm_staged_type1_ent st
        | .grub, .uki => if ucs then [UpdateEffect.rmStagedGrubUserCfg] else []
        | .systemd, _ => rm_staged_type1_ent st) ++
      (if sdhi then [UpdateEffect.rmStateDir imageIdHex] else []), ?_, ?_, ?_⟩
    · simp [validate_update, hb, hnot]
    · cases sdhi <;>
        cases bootloader <;> cases bootedBootType <;> cases st <;> cases ucs <;>
          simp [rm_staged_type1_ent]
    · cases sdhi <;>
        cases bootloader <;> cases bootedBootType <;> cases st <;> cases ucs <;>
          simp [stagedBootArtifact, rm_staged_type1_ent]
  · intro act effs heq hact
    subst hact
    by_cases hb : imageIdHex = host.bootedVerity
    · simp only [validate_update, if_pos hb] at heq
      cases isw <;> simp at heq
    · by_cases hc : imageIdHex ∈ allComposefsDeployments host
      · simp only [validate_update, if_neg hb, if_pos hc] at heq
        simp at heq
      · exact ⟨hb, hc⟩

/-! ## Rollback determination — `crates/lib/src/bootc_composefs/status.rs`

`composefs_deployment_status_from` classifies the `state/deploy` entries
into booted / staged / extra, then matches the extra entries against the
verity digests the bootloader knows; more than one match is a fatal
inconsistency, exactly one becomes the rollback deployment.
-/

/-- Does a deployment directory name match the staged-deployment marker
contents (`/run/composefs/staged-deployment`, compared after `trim`)? -/
def stagedMatches (n : String) (stagedContents : Option String) : Bool :=
  match stagedContents with
  | some s => decide (n = trimS s)
  | none => false

/-- The classification loop of `composefs_deployment_status_from`
restricted to what feeds rollback determination: deployment directory
names that are neither the booted digest nor the staged marker's id become
`extra_deployment_boot_entries`. -/
def extraDeployments : List String → String → Option String → List String
  | [], _, _ => []
  | n :: rest, bootedDigest, stagedContents =>
    if n = bootedDigest then extraDeployments rest bootedDigest stagedContents
    else if stagedMatches n stagedContents then extraDeployments rest bootedDigest stagedContents
    else n :: extraDeployments rest bootedDigest stagedContents

/-- The rollback-candidate selection at the end of
`composefs_deployment_status_from`: filter the extra entries by membership
in the bootloader-known verity set; more than one candidate is fatal; a
single candidate becomes the rollback deployment. -/
def determine_rollback (extras : List String) (known : List String) :
    Except String (Option String) :=
  if ((extras.filter (fun v => decide (v ∈ known))).length > 1) then
    .error "Multiple extra entries in /boot, could not determine rollback entry"
  else
    .ok (extras.filter (fun v => decide (v ∈ known))).head?

/-- Classification plus rollback determination. -/
def composefs_rollback (deploymentNames : List String) (bootedDigest : String)
    (stagedContents : Option String) (known : List String) : Except String (Option String) :=
  determine_rollback (extraDeployments deploymentNames bootedDigest stagedContents) known

theorem mem_extraDeployments {v : String} {names : List String} {bootedDigest : String}
    {stagedContents : Option String}
    (h : v ∈ extraDeployments names bootedDigest stagedContents) :
    v ∈ names ∧ v ≠ bootedDigest ∧ stagedMatches v stagedContents = false := by
  induction names with
  | nil => cases h
  | cons n rest ih =>
    by_cases h1 : n = bootedDigest
    · rw [extraDeployments, if_pos h1] at h
      have := ih h
      exact ⟨List.mem_cons_of_mem _ this.1, this.2.1, this.2.2⟩
    · by_cases h2 : stagedMatches n stagedContents = true
      · rw [extraDeployments, if_neg h1, if_pos h2] at h
        have := ih h
        exact ⟨List.mem_cons_of_mem _ this.1, this.2.1, this.2.2⟩
      · rw [extraDeployments, if_neg h1, if_neg h2] at h
        rcases List.mem_cons.mp h with rfl | h
        · exact ⟨List.mem_cons_self _ _, h1, Bool.eq_false_iff.mpr h2⟩
        · have := ih h
          exact ⟨List.mem_cons_of_mem _ this.1, this.2.1, this.2.2⟩

/-- Claim C7: at most one deployment that is neither booted nor staged may
match a bootloader-known entry; more than one match is a fatal
inconsistency, and exactly one match is assigned as the rollback
deployment (a deployment which is neither the booted digest nor the staged
marker's id, and which the bootloader knows). -/
theorem c7_rollback_unique :
    ∀ (deploymentNames : List String) (bootedDigest : String)
      (stagedContents : Option String) (known : List String),
      (((extraDeployments deploymentNames bootedDigest stagedContents).filter
          (fun v => decide (v ∈ known))).length > 1 →
        composefs_rollback deploymentNames bootedDigest stagedContents known =
          .error "Multiple extra entries in /boot, could not determine rollback entry") ∧
      (∀ v, (extraDeployments deploymentNames bootedDigest stagedContents).filter
          (fun v => decide (v ∈ known)) = [v] →
        composefs_rollback deploymentNames bootedDigest stagedContents known = .ok (some v) ∧
        v ∈ deploymentNames ∧ v ≠ bootedDigest ∧
        (∀ s, stagedContents = some s → v ≠ trimS s) ∧ v ∈ known) ∧
      ((extraDeployments deploymentNames bootedDigest stagedContents).filter
          (fun v => decide (v ∈ known)) = [] →
        composefs_rollback deploymentNames bootedDigest stagedContents known = .ok none) := by
  intro names bootedDigest stagedContents known
  refine ⟨?_, ?_, ?_⟩
  · intro hlen
    unfold composefs_rollback determine_rollback
    rw [if_pos hlen]
  · intro v hfilt
    have hnotlen : ¬(((extraDeployments names bootedDigest stagedContents).filter
        (fun v => decide (v ∈ known))).length > 1) := by
      rw [hfilt]
      simp
    have hres : composefs_rollback names bootedDigest stagedContents known = .ok (some v) := by
      unfold composefs_rollback determine_rollback
      rw [if_neg hnotlen, hfilt]
      rfl
    have hvmem : v ∈ (extraDeployments names bootedDigest stagedContents).filter
        (fun v => decide (v ∈ known)) := by
      rw [hfilt]
      exact List.mem_cons_self _ _
    have hvfilter := List.mem_filter.mp hvmem
    have hvextra := mem_extraDeployments hvfilter.1
    have hvknown : v ∈ known := of_decide_eq_true hvfilter.2
    refine ⟨hres, hvextra.1, hvextra.2.1, ?_, hvknown⟩
    intro s hs heq
    have := hvextra.2.2
    rw [hs] at this
    simp only [stagedMatches] at this
    rw [heq] at this
    simp at this
  · intro hfilt
    have hnotlen : ¬(((extraDeployments names bootedDigest stagedContents).filter
        (fun v => decide (v ∈ known))).length > 1) := by
      rw [hfilt]
      simp
    unfold composefs_rollback determine_rollback
    rw [if_neg hnotlen, hfilt]
    rfl

/-! ## Deployment state writing — `crates/lib/src/bootc_composefs/state.rs`

`write_composefs_state` creates and populates the state directory of a
deployment: `etc/` copy, `var` symlink, `.imginfo`, `.origin`, and — for a
staged deployment, last of all — the transient staged-deployment marker
`/run/composefs/staged-deployment`.  Each fallible filesystem operation's
outcome is an input (the environment), and the writes actually performed
are returned as an ordered trace.
-/

/-- Outcome of each fallible operation `write_composefs_state` performs,
in program order.  `makeVarSymlink` covers `path_relative_to` plus
`symlink`; `writeImginfo` covers `serde_json::to_vec` plus the atomic
write. -/
structure WriteStateEnv where
  createStateEtc : Except String Unit
  copyEtc : Except String Unit
  createVarDir : Except String Unit
  makeVarSymlink : Except String Unit
  openStateDir : Except String Unit
  writeImginfo : Except String Unit
  writeOrigin : Except String Unit
  createTransientDir : Except String Unit
  openTransientDir : Except String Unit
  writeStagedMarker : Except String Unit

/-- Writes `write_composefs_state` performs, in order (directory opens
leave no trace). -/
inductive WriteEffect where
  | createStateEtc
  | copyEtc
  | createVarDir
  | varSymlink
  | imginfo
  | origin
  | createTransientDir
  | stagedMarker
deriving DecidableEq, Repr

/-- `write_composefs_state` (state.rs): the sequence of filesystem
operations with early return on the first failure; the staged-deployment
marker write happens only in the `staged` branch, after everything
else. -/
def write_composefs_state (env : WriteStateEnv) (staged : Bool) :
    Except String Unit × List WriteEffect :=
  match env.createStateEtc with
  | .error e => (.error e, [])
  | .ok _ =>
  match env.copyEtc with
  | .error e => (.error e, [.createStateEtc])
  | .ok _ =>
  match env.createVarDir with
  | .error e => (.error e, [.createStateEtc, .copyEtc])
  | .ok _ =>
  match env.makeVarSymlink with
  | .error e => (.error e, [.createStateEtc, .copyEtc, .createVarDir])
  | .ok _ =>
  match env.openStateDir with
  | .error e => (.error e, [.createStateEtc, .copyEtc, .createVarDir, .varSymlink])
  | .ok _ =>
  match env.writeImginfo with
  | .error e => (.error e, [.createStateEtc, .copyEtc, .createVarDir, .varSymlink])
  | .ok _ =>
  match env.writeOrigin with
  | .error e => (.error e, [.createStateEtc, .copyEtc, .createVarDir, .varSymlink, .imginfo])
  | .ok _ =>
  match staged with
  | false => (.ok (), [.createStateEtc, .copyEtc, .createVarDir, .varSymlink, .imginfo, .origin])
  | true =>
  match env.createTransientDir with
  | .error e => (.error e,
      [.createStateEtc, .copyEtc, .createVarDir, .varSymlink, .imginfo, .origin])
  | .ok _ =>
  match env.openTransientDir with
  | .error e => (.error e,
      [.createStateEtc, .copyEtc, .createVarDir, .varSymlink, .imginfo, .origin,
        .createTransientDir])
  | .ok _ =>
  match env.writeStagedMarker with
  | .error e => (.error e,
      [.createStateEtc, .copyEtc, .createVarDir, .varSymlink, .imginfo, .origin,
        .createTransientDir])
  | .ok _ => (.ok (),
      [.createStateEtc, .copyEtc, .createVarDir, .varSymlink, .imginfo, .origin,
        .createTransientDir, .stagedMarker])

/-- Claim C1: creating a deployment is an all-or-nothing commit — the
transient staged-deployment marker is written only after the `etc/` copy,
the `var` symlink, the `.imginfo` file and the `.origin` file: whenever
the marker appears in the trace it is the last write and all four earlier
writes precede it; and if any earlier operation fails, the marker is never
written. -/
theorem c1_staged_marker_last :
    ∀ (env : WriteStateEnv) (staged : Bool),
      (WriteEffect.stagedMarker ∈ (write_composefs_state env staged).2 →
        staged = true ∧
        ∃ t, (write_composefs_state env staged).2 = t ++ [WriteEffect.stagedMarker] ∧
          WriteEffect.copyEtc ∈ t ∧ WriteEffect.varSymlink ∈ t ∧
          WriteEffect.imginfo ∈ t ∧ WriteEffect.origin ∈ t) ∧
      (∀ e, (env.createStateEtc = .error e ∨ env.copyEtc = .error e ∨
          env.createVarDir = .error e ∨ env.makeVarSymlink = .error e ∨
          env.openStateDir = .error e ∨ env.writeImginfo = .error e ∨
          env.writeOrigin = .error e) →
        WriteEffect.stagedMarker ∉ (write_composefs_state env staged).2) := by
  intro env staged
  obtain ⟨c1, c2, c3, c4, c5, c6, c7, c8, c9, c10⟩ := env
  cases c1 with
  | error e1 => constructor <;> simp [write_composefs_state]
  | ok u1 =>
  cases c2 with
  | error e2 => constructor <;> simp [write_composefs_state]
  | ok u2 =>
  cases c3 with
  | error e3 => constructor <;> simp [write_composefs_state]
  | ok u3 =>
  cases c4 with
  | error e4 => constructor <;> simp [write_composefs_state]
  | ok u4 =>
  cases c5 with
  | error e5 => constructor <;> simp [write_composefs_state]
  | ok u5 =>
  cases c6 with
  | error e6 => constructor <;> simp [write_composefs_state]
  | ok u6 =>
  cases c7 with
  | error e7 => constructor <;> simp [write_composefs_state]
  | ok u7 =>
  cases staged with
  | false => constructor <;> simp [write_composefs_state]
  | true =>
  cases c8 with
  | error e8 => constructor <;> simp [write_composefs_state]
  | ok u8 =>
  cases c9 with
  | error e9 => constructor <;> simp [write_composefs_state]
  | ok u9 =>
  cases c10 with
  | error e10 => constructor <;> simp [write_composefs_state]
  | ok u10 =>
    constructor
    · intro _
      refine ⟨rfl, [.createStateEtc, .copyEtc, .createVarDir, .varSymlink, .imginfo, .origin,
        .createTransientDir], ?_, by simp, by simp, by simp, by simp⟩
      simp [write_composefs_state]
    · intro e h
      rcases h with h | h | h | h | h | h | h <;> cases h

end Bootc
